import Mathlib

/-!
# Retail Sales Analysis — verification of the reconciliation/aggregation pipeline

Shallow embedding of the core pipeline of `src/app.py`:
referential validation (`connect_to_database`, lines 72-86), the date and
category filters, the customer/product joins, the daily time-series grid
builder, and the aggregated views and scalars of the live callback
`update_dashboard` (lines 441-675).

Modelling conventions:
* Calendar dates are days since an epoch (`Nat`); the source normalises all
  dates to daily granularity (`pd.to_datetime(...).dt.date`) before use.
* Monetary values are exact rationals (`ℚ`); the floating-point tolerance of
  the source is irrelevant at this granularity because every identity proved
  here is exact.
* A pandas `groupby(k).agg(sum)` followed by a left merge onto a skeleton and
  `fillna(0)` assigns to each skeleton key the sum of the aggregated column
  over the rows matching that key, and `0` when no row matches; since the sum
  over an empty filter is `0`, both are embedded as a filter-and-sum.
* `pd.date_range(start, end, freq='D')` raises `ValueError` when `start`/`end`
  is `NaT`, which happens exactly when the filtered merged dataset is empty
  (min/max of an empty datetime column is `NaT`); the grid builder therefore
  returns `Option`, with `none` standing for that raised exception.
* `Series.unique`/`groupby` enumerate distinct keys; pandas `groupby` sorts
  its keys ascending and the grid is finally sorted by `(Date, Category)`,
  so distinct keys are embedded as a sorted deduplicated list.
-/

namespace RetailSales

/-- A row of the `Customers` master table (SQL Server): its key and the
`Location` attribute used by the by-location view. -/
structure Customer where
  customerID : Nat
  location : String
deriving DecidableEq

/-- A row of the `Products` master table (SQL Server): its key and the
`Category` attribute used for filtering, the grid and the distribution. -/
structure Product where
  productID : Nat
  category : String
deriving DecidableEq

/-- A row of the sales sheet (`data/sales_data.xlsx`): date, foreign keys,
quantity and unit price at time of sale (the `Price` column that survives the
merges and feeds every revenue computation). -/
structure SaleRecord where
  date : Nat
  customerID : Nat
  productID : Nat
  quantitySold : Nat
  price : ℚ
deriving DecidableEq

/-- A sales row after the two merges of `update_dashboard` (lines 477-478):
the sale columns widened with the customer `Location` and product
`Category`. -/
structure MergedRecord where
  date : Nat
  customerID : Nat
  productID : Nat
  quantitySold : Nat
  price : ℚ
  location : String
  category : String
deriving DecidableEq

/-- Per-row revenue `QuantitySold * Price`, the quantity-weighted term the
source computes inside every aggregation lambda
(`(x * merged_data.loc[x.index, 'QuantitySold']).sum()`). -/
def lineRevenue (m : MergedRecord) : ℚ := m.quantitySold * m.price

/-- Line 486: `total_revenue = (merged_data['QuantitySold'] * merged_data['Price']).sum()`. -/
def totalRevenue (l : List MergedRecord) : ℚ := (l.map lineRevenue).sum

/-! ## Referential Validator (`connect_to_database`, lines 72-86) -/

/-- Lines 76-79: a sale is kept iff its `CustomerID` is in the set of customer
keys and its `ProductID` is in the set of product keys. -/
def validSale (cs : List Customer) (ps : List Product) (s : SaleRecord) : Bool :=
  cs.any (fun c => c.customerID = s.customerID) &&
    ps.any (fun p => p.productID = s.productID)

/-- Lines 76-86: partition the sales into the valid subset
(`sales_df[valid_sales]`) and the dropped-record count
(`invalid_count = len(sales_df) - valid_sales.sum()`), which is printed as a
warning, never raised. -/
def validateSales (cs : List Customer) (ps : List Product)
    (sales : List SaleRecord) : List SaleRecord × Nat :=
  let valid := sales.filter (validSale cs ps)
  (valid, sales.length - valid.length)

/-! ## Filter Stage (`update_dashboard`, lines 467-473 and 481-483) -/

/-- Lines 467-473: the date restriction is applied only under
`if start_date and end_date:`; with both bounds present it keeps rows with
`start_date <= Date <= end_date`, otherwise the data passes unchanged. -/
def dateFilterSales (sd ed : Option Nat) (sales : List SaleRecord) :
    List SaleRecord :=
  match sd, ed with
  | some s, some e =>
      sales.filter (fun r => decide (s ≤ r.date) && decide (r.date ≤ e))
  | _, _ => sales

/-- The same date restriction expressed on merged rows (the merges preserve
the `Date` column, see `joinAll_dateFilterSales`). -/
def dateFilterMerged (sd ed : Option Nat) (l : List MergedRecord) :
    List MergedRecord :=
  match sd, ed with
  | some s, some e =>
      l.filter (fun m => decide (s ≤ m.date) && decide (m.date ≤ e))
  | _, _ => l

/-- Lines 481-483: the category restriction is applied only under
`if selected_categories and len(selected_categories) > 0:` (a `None` or empty
selection restricts nothing); otherwise it keeps rows whose `Category` is in
the selection. -/
def categoryFilter (sel : Option (List String)) (l : List MergedRecord) :
    List MergedRecord :=
  match sel with
  | some (c :: rest) => l.filter (fun m => (c :: rest).contains m.category)
  | _ => l

/-! ## Joiner (`update_dashboard`, lines 477-478) -/

/-- Lines 477-478: `sales_df.merge(customers_df, on='CustomerID', how='left')`
then `.merge(products_df, on='ProductID', how='left')`, keyed lookups into the
master tables.  A row whose keys do not resolve is dropped here; the
Validator (`validSale`) guarantees this never happens on the live path. -/
def joinOne (cs : List Customer) (ps : List Product) (s : SaleRecord) :
    Option MergedRecord :=
  match cs.find? (fun c => c.customerID = s.customerID),
      ps.find? (fun p => p.productID = s.productID) with
  | some c, some p =>
      some ⟨s.date, s.customerID, s.productID, s.quantitySold, s.price,
        c.location, p.category⟩
  | _, _ => none

/-- The two left merges applied to the whole sales table. -/
def joinAll (cs : List Customer) (ps : List Product)
    (sales : List SaleRecord) : List MergedRecord :=
  sales.filterMap (joinOne cs ps)

/-! ## Sorting helper (stable insertion sort)

`DataFrame.nlargest(n, col)` (with the default `keep='first'`) returns the
`n` rows with the largest `col`, ordered descending, and resolves ties by
original position (it selects and orders with a stable sort); pandas
`groupby` emits its keys sorted ascending.  Both are embedded with a stable
insertion sort parameterised by a boolean comparison. -/

/-- Insert `a` before the first element `b` with `le a b`; elements strictly
preferred by `le` to `a` stay in front, so the sort built on this is stable. -/
def insertBy {α : Type} (le : α → α → Bool) (a : α) : List α → List α
  | [] => [a]
  | b :: l => if le a b then a :: b :: l else b :: insertBy le a l

/-- Stable insertion sort by the boolean comparison `le`. -/
def sortBy {α : Type} (le : α → α → Bool) : List α → List α
  | [] => []
  | a :: l => insertBy le a (sortBy le l)

/-! ## Time-Series Grid Builder (`update_dashboard`, lines 502-535) -/

/-- Line 507 / line 535: the distinct categories of the (filtered) merged
data (`merged_data['Category'].unique()`), in the ascending order the final
`sort_values(['Date', 'Category'])` leaves them in within each date. -/
def categoriesOf (l : List MergedRecord) : List String :=
  sortBy (fun a b => decide (a ≤ b)) ((l.map (fun m => m.category)).dedup)

/-- Line 503: `merged_data['Date'].min()` (`0` only stands in for the `NaT`
of an empty column, which `buildGrid` intercepts). -/
def minDate (l : List MergedRecord) : Nat :=
  ((l.map (fun m => m.date)).min?).getD 0

/-- Line 504: `merged_data['Date'].max()`. -/
def maxDate (l : List MergedRecord) : Nat :=
  ((l.map (fun m => m.date)).max?).getD 0

/-- Lines 502-506: `pd.date_range(min_date, max_date, freq='D')`, every
calendar day from `minDate` to `maxDate` inclusive. -/
def gridDates (l : List MergedRecord) : List Nat :=
  (List.range (maxDate l + 1 - minDate l)).map (fun i => minDate l + i)

/-- One row of the fully populated trends DataFrame. -/
structure GridCell where
  date : Nat
  category : String
  quantitySold : Nat
  revenue : ℚ
deriving DecidableEq

/-- The rows of the merged data belonging to the `(Date, Category)` group of
a grid cell. -/
def matchesCell (d : Nat) (c : String) (m : MergedRecord) : Bool :=
  decide (m.date = d) && decide (m.category = c)

/-- Lines 519-532, quantity column: the groupby-sum of `QuantitySold` for the
`(d, c)` group, left-merged onto the skeleton with `fillna(0)`. -/
def cellQty (l : List MergedRecord) (d : Nat) (c : String) : Nat :=
  ((l.filter (matchesCell d c)).map (fun m => m.quantitySold)).sum

/-- Lines 519-532, revenue column: the groupby lambda
`(x * merged_data.loc[x.index, 'QuantitySold']).sum()` for the `(d, c)`
group, left-merged onto the skeleton with `fillna(0)`. -/
def cellRev (l : List MergedRecord) (d : Nat) (c : String) : ℚ :=
  ((l.filter (matchesCell d c)).map lineRevenue).sum

/-- Lines 502-535: the complete `Date × Category` skeleton
(`MultiIndex.from_product`), populated by the left merge with the daily
aggregates and `fillna(0)`, sorted by `(Date, Category)`. -/
def gridRows (l : List MergedRecord) : List GridCell :=
  (gridDates l).flatMap (fun d =>
    (categoriesOf l).map (fun c => ⟨d, c, cellQty l d c, cellRev l d c⟩))

/-- The grid-building operation of lines 502-535.  On an empty dataset
`merged_data['Date'].min()`/`.max()` are `NaT` and `pd.date_range(NaT, NaT)`
raises `ValueError` (caught only by the callback's catch-all handler at line
666), embedded as `none`; on non-empty data it returns the populated
skeleton `gridRows`. -/
def buildGrid (l : List MergedRecord) : Option (List GridCell) :=
  if l.isEmpty then none else some (gridRows l)

/-! ## Aggregator (`update_dashboard`, lines 486-488, 598-652) -/

/-- Groupby-sum of `QuantitySold` over the rows selected by `p`. -/
def groupQty (l : List MergedRecord) (p : MergedRecord → Bool) : Nat :=
  ((l.filter p).map (fun m => m.quantitySold)).sum

/-- Groupby revenue lambda over the rows selected by `p`. -/
def groupRev (l : List MergedRecord) (p : MergedRecord → Bool) : ℚ :=
  ((l.filter p).map lineRevenue).sum

/-- The distinct `Location` keys of `groupby('Location')`, ascending. -/
def locationsOf (l : List MergedRecord) : List String :=
  sortBy (fun a b => decide (a ≤ b)) ((l.map (fun m => m.location)).dedup)

/-- Lines 598-601: `merged_data.groupby('Location').agg({'QuantitySold':
'sum', 'Price': revenue lambda})` — one `(Location, QuantitySold, Revenue)`
row per distinct location, keys ascending. -/
def locationData (l : List MergedRecord) : List (String × Nat × ℚ) :=
  (locationsOf l).map (fun loc =>
    (loc, groupQty l (fun m => m.location = loc),
      groupRev l (fun m => m.location = loc)))

/-- Line 602: `location_data.nlargest(5, 'Price')` — stable descending
selection of the five largest-revenue rows. -/
def topLocations (l : List MergedRecord) : List (String × Nat × ℚ) :=
  (sortBy (fun a b => decide (b.2.2 ≤ a.2.2)) (locationData l)).take 5

/-- Lines 619-622: `merged_data.groupby('Category').agg({'QuantitySold':
'sum', 'Price': revenue lambda})` — one `(Category, QuantitySold, Revenue)`
row per distinct category, keys ascending. -/
def categoryData (l : List MergedRecord) : List (String × Nat × ℚ) :=
  (categoriesOf l).map (fun c =>
    (c, groupQty l (fun m => m.category = c),
      groupRev l (fun m => m.category = c)))

/-- The distinct `CustomerID` keys of `groupby('CustomerID')`, ascending. -/
def customersOf (l : List MergedRecord) : List Nat :=
  sortBy (fun a b => decide (a ≤ b)) ((l.map (fun m => m.customerID)).dedup)

/-- Lines 633-636: `merged_data.groupby('CustomerID').agg({'QuantitySold':
'sum', 'Price': lambda x: (x * q).sum() / q.sum()})`.  The division is not
guarded: when the group's quantity sum is `0`, numpy's true division yields
the float non-value `NaN` (with a runtime warning), embedded as `none`;
otherwise the average spending per item is `sum(LineRevenue) / sum(Quantity)`. -/
def patternData (l : List MergedRecord) : List (Nat × Nat × Option ℚ) :=
  (customersOf l).map (fun cid =>
    let q := groupQty l (fun m => m.customerID = cid)
    (cid, q,
      if q = 0 then none
      else some (groupRev l (fun m => m.customerID = cid) / (q : ℚ))))

/-! ## The dashboard callback (`update_dashboard`) -/

/-- The outputs of one run of the callback that the claims are about. -/
structure DashboardOut where
  grid : Option (List GridCell)
  topLocations : List (String × Nat × ℚ)
  categoryData : List (String × Nat × ℚ)
  patternData : List (Nat × Nat × Option ℚ)
  totalRevenue : ℚ
  totalCustomers : Nat
  totalProducts : Nat
deriving DecidableEq

/-- Lines 464-483: the filtered merged dataset — date filter on the sales,
the two merges, then the category filter. -/
def filteredMerged (cs : List Customer) (ps : List Product)
    (sales : List SaleRecord) (sd ed : Option Nat)
    (sel : Option (List String)) : List MergedRecord :=
  categoryFilter sel (joinAll cs ps (dateFilterSales sd ed sales))

/-- Lines 441-664 (happy path): one run of `update_dashboard` on already
validated sales.  `total_customers = len(customers_df)` and
`total_products = len(products_df)` (lines 487-488) count the unfiltered
master tables. -/
def updateDashboard (cs : List Customer) (ps : List Product)
    (sales : List SaleRecord) (sd ed : Option Nat)
    (sel : Option (List String)) : DashboardOut :=
  let fm := filteredMerged cs ps sales sd ed sel
  ⟨buildGrid fm, topLocations fm, categoryData fm, patternData fm,
    totalRevenue fm, cs.length, ps.length⟩

/-! ## Lemmas about the stable insertion sort -/

theorem insertBy_perm {α : Type} (le : α → α → Bool) (a : α) (l : List α) :
    (insertBy le a l).Perm (a :: l) := by
  induction l with
  | nil => exact List.Perm.refl _
  | cons b t ih =>
      by_cases h : le a b = true
      · simp [insertBy, h]
      · simp only [insertBy, h, if_false]
        exact (ih.cons b).trans (List.Perm.swap a b t)

theorem sortBy_perm {α : Type} (le : α → α → Bool) (l : List α) :
    (sortBy le l).Perm l := by
  induction l with
  | nil => exact List.Perm.refl _
  | cons a t ih => exact (insertBy_perm le a (sortBy le t)).trans (ih.cons a)

theorem mem_insertBy {α : Type} (le : α → α → Bool) (a x : α) (l : List α) :
    x ∈ insertBy le a l ↔ x = a ∨ x ∈ l := by
  rw [(insertBy_perm le a l).mem_iff, List.mem_cons]

theorem mem_sortBy {α : Type} (le : α → α → Bool) (x : α) (l : List α) :
    x ∈ sortBy le l ↔ x ∈ l :=
  (sortBy_perm le l).mem_iff

theorem nodup_sortBy {α : Type} (le : α → α → Bool) (l : List α)
    (h : l.Nodup) : (sortBy le l).Nodup :=
  (sortBy_perm le l).nodup_iff.mpr h

theorem pairwise_insertBy {α : Type} (le : α → α → Bool)
    (htot : ∀ a b, le a b = true ∨ le b a = true)
    (htrans : ∀ a b c, le a b = true → le b c = true → le a c = true)
    (a : α) (l : List α) (h : l.Pairwise (fun x y => le x y = true)) :
    (insertBy le a l).Pairwise (fun x y => le x y = true) := by
  induction l with
  | nil => simp [insertBy]
  | cons b t ih =>
      rcases List.pairwise_cons.mp h with ⟨hb, ht⟩
      by_cases hab : le a b = true
      · simp only [insertBy, hab, if_true]
        refine List.pairwise_cons.mpr ⟨?_, h⟩
        intro x hx
        rcases List.mem_cons.mp hx with rfl | hx
        · exact hab
        · exact htrans a b x hab (hb x hx)
      · simp only [insertBy, hab, if_false]
        refine List.pairwise_cons.mpr ⟨?_, ih ht⟩
        intro x hx
        rcases (mem_insertBy le a x t).mp hx with rfl | hx
        · rcases htot x b with h1 | h1
          · exact absurd h1 hab
          · exact h1
        · exact hb x hx

theorem pairwise_sortBy {α : Type} (le : α → α → Bool)
    (htot : ∀ a b, le a b = true ∨ le b a = true)
    (htrans : ∀ a b c, le a b = true → le b c = true → le a c = true)
    (l : List α) : (sortBy le l).Pairwise (fun x y => le x y = true) := by
  induction l with
  | nil => simp [sortBy]
  | cons a t ih => exact pairwise_insertBy le htot htrans a (sortBy le t) ih

/-! ## Summation helpers -/

theorem sum_map_single {α M : Type} [AddCommMonoid M] [DecidableEq α]
    (l : List α) (hl : l.Nodup) (a : α) (ha : a ∈ l) (v : M) :
    (l.map (fun x => if x = a then v else 0)).sum = v := by
  induction l with
  | nil => cases ha
  | cons b t ih =>
      rcases List.nodup_cons.mp hl with ⟨hbt, hnt⟩
      rw [List.map_cons, List.sum_cons]
      rcases List.mem_cons.mp ha with rfl | hat
      · rw [if_pos rfl]
        have hz : ((t.map (fun x => if x = a then v else 0)).sum) = 0 := by
          refine List.sum_eq_zero ?_
          intro x hx
          rcases List.mem_map.mp hx with ⟨y, hy, rfl⟩
          have : y ≠ a := fun e => hbt (e ▸ hy)
          simp [this]
        rw [hz, add_zero]
      · have hb : b ≠ a := fun e => hbt (e ▸ hat)
        rw [if_neg hb, ih hnt hat, zero_add]

theorem sum_map_addf {α M : Type} [AddCommMonoid M] (l : List α)
    (f g : α → M) :
    (l.map (fun x => f x + g x)).sum = (l.map f).sum + (l.map g).sum := by
  induction l with
  | nil => simp
  | cons a t ih =>
      simp only [List.map_cons, List.sum_cons, ih]
      abel

theorem countP_eq_sum_map {α : Type} (p : α → Bool) (l : List α) :
    l.countP p = (l.map (fun x => if p x = true then (1 : ℕ) else 0)).sum := by
  induction l with
  | nil => rfl
  | cons a t ih =>
      rw [List.countP_cons, List.map_cons, List.sum_cons, ih]
      by_cases h : p a = true <;> simp [h, Nat.add_comm]

/-- Partition of a list sum over a complete, duplicate-free list of group
keys: summing the groupby aggregates recovers the raw sum. -/
theorem sum_groups {κ M : Type} [DecidableEq κ] [AddCommMonoid M]
    (keys : List κ) (hk : keys.Nodup) (l : List RetailSales.MergedRecord)
    (k : RetailSales.MergedRecord → κ) (f : RetailSales.MergedRecord → M)
    (hcov : ∀ m ∈ l, k m ∈ keys) :
    (keys.map
      (fun c => ((l.filter (fun m => k m = c)).map f).sum)).sum
      = (l.map f).sum := by
  induction l with
  | nil =>
      rw [List.map_nil, List.sum_nil]
      refine List.sum_eq_zero ?_
      intro x hx
      rcases List.mem_map.mp hx with ⟨c, _, rfl⟩
      simp
  | cons m t ih =>
      have hsplit : (keys.map
          (fun c => (((m :: t).filter (fun x => k x = c)).map f).sum))
          = keys.map (fun c => (if c = k m then f m else 0)
              + ((t.filter (fun x => k x = c)).map f).sum) := by
        refine List.map_congr_left ?_
        intro c _
        by_cases h : c = k m
        · subst h
          simp [List.filter_cons]
        · have h2 : ¬ (k m = c) := fun e => h e.symm
          simp [List.filter_cons, h, h2]
      rw [hsplit, sum_map_addf,
        sum_map_single keys hk (k m) (hcov m (List.mem_cons_self m t)) (f m),
        ih (fun x hx => hcov x (List.mem_cons_of_mem m hx)),
        List.map_cons, List.sum_cons]

/-! ## Facts about `minDate`, `maxDate` and `gridDates` -/

theorem minDate_spec (l : List MergedRecord) (h : l ≠ []) :
    (∃ m ∈ l, m.date = minDate l) ∧ ∀ m ∈ l, minDate l ≤ m.date := by
  have hne : l.map (fun m => m.date) ≠ [] := by
    intro e
    exact h (List.map_eq_nil_iff.mp e)
  cases hmin : (l.map (fun m => m.date)).min? with
  | none => exact absurd (List.min?_eq_none_iff.mp hmin) hne
  | some a =>
      have hspec := List.min?_eq_some_iff'.mp hmin
      have hval : minDate l = a := by simp [minDate, hmin]
      constructor
      · rcases List.mem_map.mp hspec.1 with ⟨m, hm, hma⟩
        exact ⟨m, hm, by rw [hma, hval]⟩
      · intro m hm
        rw [hval]
        exact hspec.2 _ (List.mem_map.mpr ⟨m, hm, rfl⟩)

theorem maxDate_spec (l : List MergedRecord) (h : l ≠ []) :
    (∃ m ∈ l, m.date = maxDate l) ∧ ∀ m ∈ l, m.date ≤ maxDate l := by
  have hne : l.map (fun m => m.date) ≠ [] := by
    intro e
    exact h (List.map_eq_nil_iff.mp e)
  cases hmax : (l.map (fun m => m.date)).max? with
  | none => exact absurd (List.max?_eq_none_iff.mp hmax) hne
  | some a =>
      have hspec := List.max?_eq_some_iff'.mp hmax
      have hval : maxDate l = a := by simp [maxDate, hmax]
      constructor
      · rcases List.mem_map.mp hspec.1 with ⟨m, hm, hma⟩
        exact ⟨m, hm, by rw [hma, hval]⟩
      · intro m hm
        rw [hval]
        exact hspec.2 _ (List.mem_map.mpr ⟨m, hm, rfl⟩)

theorem minDate_le_maxDate (l : List MergedRecord) (h : l ≠ []) :
    minDate l ≤ maxDate l := by
  have hne : l ≠ [] := h
  rcases minDate_spec l h with ⟨⟨m, hm, hmd⟩, _⟩
  rcases maxDate_spec l h with ⟨_, hub⟩
  calc minDate l = m.date := hmd.symm
    _ ≤ maxDate l := hub m hm

theorem mem_gridDates (l : List MergedRecord) (h : l ≠ []) (x : Nat) :
    x ∈ gridDates l ↔ minDate l ≤ x ∧ x ≤ maxDate l := by
  have hle := minDate_le_maxDate l h
  simp only [gridDates, List.mem_map, List.mem_range]
  constructor
  · rintro ⟨i, hi, rfl⟩
    omega
  · rintro ⟨h1, h2⟩
    exact ⟨x - minDate l, by omega, by omega⟩

theorem nodup_gridDates (l : List MergedRecord) : (gridDates l).Nodup := by
  refine List.Nodup.map ?_ (List.nodup_range _)
  intro a b hab
  dsimp only at hab
  omega

theorem length_gridDates (l : List MergedRecord) :
    (gridDates l).length = maxDate l + 1 - minDate l := by
  simp [gridDates]

theorem nodup_categoriesOf (l : List MergedRecord) :
    (categoriesOf l).Nodup :=
  nodup_sortBy _ _ (List.nodup_dedup _)

theorem mem_categoriesOf (l : List MergedRecord) (c : String) :
    c ∈ categoriesOf l ↔ c ∈ l.map (fun m => m.category) := by
  rw [categoriesOf, mem_sortBy, List.mem_dedup]

theorem date_mem_gridDates (l : List MergedRecord) (m : MergedRecord)
    (hm : m ∈ l) : m.date ∈ gridDates l := by
  have h : l ≠ [] := by rintro rfl; cases hm
  exact (mem_gridDates l h m.date).mpr
    ⟨(minDate_spec l h).2 m hm, (maxDate_spec l h).2 m hm⟩

theorem category_mem_categoriesOf (l : List MergedRecord) (m : MergedRecord)
    (hm : m ∈ l) : m.category ∈ categoriesOf l :=
  (mem_categoriesOf l m.category).mpr (List.mem_map.mpr ⟨m, hm, rfl⟩)

/-! ## Facts about the grid -/

theorem buildGrid_eq_some (l : List MergedRecord) (g : List GridCell)
    (h : buildGrid l = some g) : l ≠ [] ∧ g = gridRows l := by
  by_cases he : l.isEmpty
  · rw [buildGrid, if_pos he] at h
    cases h
  · rw [buildGrid, if_neg he] at h
    exact ⟨fun e => he (by simp [e]), (Option.some.injEq _ _ ▸ h).symm⟩

theorem buildGrid_eq_none (l : List MergedRecord) :
    buildGrid l = none ↔ l = [] := by
  by_cases he : l.isEmpty
  · simp [buildGrid, he, List.isEmpty_iff.mp he]
  · simp [buildGrid, he]
    intro e
    exact he (by simp [e])

theorem gridRows_fields (l : List MergedRecord) (cell : GridCell)
    (h : cell ∈ gridRows l) :
    cell.date ∈ gridDates l ∧ cell.category ∈ categoriesOf l ∧
    cell.quantitySold = cellQty l cell.date cell.category ∧
    cell.revenue = cellRev l cell.date cell.category := by
  rcases List.mem_flatMap.mp h with ⟨d, hd, hcell⟩
  rcases List.mem_map.mp hcell with ⟨c, hc, rfl⟩
  exact ⟨hd, hc, rfl, rfl⟩

theorem sum_map_const_nat {α : Type} (l : List α) (k : ℕ) :
    (l.map (fun _ => k)).sum = l.length * k := by
  induction l with
  | nil => simp
  | cons a t ih => simp [ih, Nat.succ_mul, Nat.add_comm]

theorem length_flatMap_const {α β : Type} (D : List α) (g : α → List β)
    (k : ℕ) (h : ∀ d ∈ D, (g d).length = k) :
    (D.flatMap g).length = D.length * k := by
  induction D with
  | nil => simp
  | cons a t ih =>
      rw [List.flatMap_cons, List.length_append, h a (List.mem_cons_self a t),
        ih (fun d hd => h d (List.mem_cons_of_mem a hd)), List.length_cons,
        Nat.succ_mul, Nat.add_comm]

theorem length_gridRows (l : List MergedRecord) :
    (gridRows l).length = (gridDates l).length * (categoriesOf l).length := by
  rw [gridRows]
  exact length_flatMap_const _ _ _ (fun d _ => List.length_map _ _)

theorem countP_eq_one_of_nodup {α : Type} [DecidableEq α] (L : List α)
    (hL : L.Nodup) (a : α) (ha : a ∈ L) :
    L.countP (fun x => decide (x = a)) = 1 := by
  induction L with
  | nil => cases ha
  | cons b t ih =>
      rcases List.nodup_cons.mp hL with ⟨hbt, hnt⟩
      rcases List.mem_cons.mp ha with rfl | hat
      · have hz : t.countP (fun x => decide (x = a)) = 0 := by
          rw [List.countP_eq_zero]
          intro x hx
          simp only [decide_eq_true_eq]
          exact fun e => hbt (e ▸ hx)
        rw [List.countP_cons, hz]
        simp
      · have hba : ¬ (b = a) := fun e => hbt (e ▸ hat)
        rw [List.countP_cons, ih hnt hat]
        simp [hba]

theorem countP_gridRows (l : List MergedRecord) (d : Nat) (c : String)
    (hd : d ∈ gridDates l) (hc : c ∈ categoriesOf l) :
    (gridRows l).countP
      (fun cell => decide (cell.date = d) && decide (cell.category = c)) = 1 := by
  rw [gridRows, List.countP_flatMap]
  simp only [Function.comp_def]
  have hmain : (gridDates l).map
      (fun d' => (((categoriesOf l).map
        (fun c' => (⟨d', c', cellQty l d' c', cellRev l d' c'⟩ : GridCell))).countP
        (fun cell => decide (cell.date = d) && decide (cell.category = c))))
      = (gridDates l).map (fun d' => if d' = d then 1 else 0) := by
    refine List.map_congr_left ?_
    intro d' _
    rw [List.countP_map]
    by_cases hdd : d' = d
    · subst hdd
      rw [if_pos rfl]
      rw [List.countP_congr (q := fun c' => decide (c' = c)) ?_]
      · exact countP_eq_one_of_nodup _ (nodup_categoriesOf l) c hc
      · intro x _
        simp
    · rw [if_neg hdd, List.countP_eq_zero]
      intro x _
      simp [hdd]
  rw [hmain, sum_map_single _ (nodup_gridDates l) d hd 1]

theorem sum_map_flatMap {α M : Type} [AddCommMonoid M] (D : List α)
    (g : α → List M) :
    (D.flatMap g).sum = (D.map (fun d => (g d).sum)).sum := by
  induction D with
  | nil => simp
  | cons d t ih => simp [List.flatMap_cons, ih]

theorem cellRev_eq_filter_filter (l : List MergedRecord) (d : Nat)
    (c : String) :
    cellRev l d c
      = (((l.filter (fun m => m.date = d)).filter
          (fun m => m.category = c)).map lineRevenue).sum := by
  rw [cellRev, List.filter_filter]
  have : l.filter (matchesCell d c)
      = l.filter (fun m => decide (m.category = c) && decide (m.date = d)) := by
    refine List.filter_congr ?_
    intro m _
    rw [matchesCell, Bool.and_comm]
  rw [this]

theorem sum_gridRows_rev (l : List MergedRecord) :
    ((gridRows l).map (fun cell => cell.revenue)).sum = totalRevenue l := by
  rw [gridRows, List.map_flatMap]
  rw [sum_map_flatMap]
  have hinner : ∀ d ∈ gridDates l,
      (((categoriesOf l).map
        (fun c => (⟨d, c, cellQty l d c, cellRev l d c⟩ : GridCell))).map
        (fun cell => cell.revenue)).sum
      = totalRevenue (l.filter (fun m => m.date = d)) := by
    intro d _
    rw [List.map_map]
    have hmap : ((categoriesOf l).map
        ((fun cell => cell.revenue) ∘
          (fun c => (⟨d, c, cellQty l d c, cellRev l d c⟩ : GridCell))))
        = (categoriesOf l).map
          (fun c => (((l.filter (fun m => m.date = d)).filter
            (fun m => m.category = c)).map lineRevenue).sum) := by
      refine List.map_congr_left ?_
      intro c _
      exact cellRev_eq_filter_filter l d c
    rw [hmap, totalRevenue]
    refine sum_groups (categoriesOf l) (nodup_categoriesOf l)
      (l.filter (fun m => m.date = d)) (fun m => m.category) lineRevenue ?_
    intro m hm
    exact category_mem_categoriesOf l m (List.mem_of_mem_filter hm)
  have houter : (gridDates l).map
      (fun d => (((categoriesOf l).map
        (fun c => (⟨d, c, cellQty l d c, cellRev l d c⟩ : GridCell))).map
        (fun cell => cell.revenue)).sum)
      = (gridDates l).map
        (fun d => totalRevenue (l.filter (fun m => m.date = d))) := by
    refine List.map_congr_left ?_
    intro d hd
    exact hinner d hd
  rw [houter, totalRevenue]
  exact sum_groups (gridDates l) (nodup_gridDates l) l (fun m => m.date)
    lineRevenue (fun m hm => date_mem_gridDates l m hm)

theorem sum_categoryData_rev (l : List MergedRecord) :
    ((categoryData l).map (fun e => e.2.2)).sum = totalRevenue l := by
  rw [categoryData, List.map_map]
  have : (categoriesOf l).map
      ((fun e => e.2.2) ∘ (fun c =>
        ((c, groupQty l (fun m => m.category = c),
          groupRev l (fun m => m.category = c)) : String × Nat × ℚ)))
      = (categoriesOf l).map
        (fun c => ((l.filter (fun m => m.category = c)).map lineRevenue).sum) := by
    refine List.map_congr_left ?_
    intro c _
    rfl
  rw [this, totalRevenue]
  exact sum_groups (categoriesOf l) (nodup_categoriesOf l) l
    (fun m => m.category) lineRevenue
    (fun m hm => category_mem_categoriesOf l m hm)

/-! ## Facts about the by-location view -/

/-- The order of the rows `nlargest(5, 'Price')` produces: revenue strictly
descending, equal revenues resolved by location ascending. -/
def locEntryLT (a b : String × Nat × ℚ) : Prop :=
  b.2.2 < a.2.2 ∨ (a.2.2 = b.2.2 ∧ a.1 < b.1)

theorem pairwise_lt_sortBy_le {α : Type} [LinearOrder α] (L : List α)
    (hnd : L.Nodup) :
    (sortBy (fun a b => decide (a ≤ b)) L).Pairwise (fun a b => a < b) := by
  have htot : ∀ a b : α, decide (a ≤ b) = true ∨ decide (b ≤ a) = true := by
    intro a b
    rcases le_total a b with h | h
    · exact Or.inl (decide_eq_true h)
    · exact Or.inr (decide_eq_true h)
  have htrans : ∀ a b c : α, decide (a ≤ b) = true → decide (b ≤ c) = true →
      decide (a ≤ c) = true := fun a b c hab hbc =>
    decide_eq_true (le_trans (of_decide_eq_true hab) (of_decide_eq_true hbc))
  have hp := pairwise_sortBy (fun a b : α => decide (a ≤ b)) htot htrans L
  have hnd' : (sortBy (fun a b : α => decide (a ≤ b)) L).Pairwise
      (fun a b => a ≠ b) := nodup_sortBy _ L hnd
  exact (hp.and hnd').imp
    (fun h => lt_of_le_of_ne (of_decide_eq_true h.1) h.2)

theorem pairwise_locationData (l : List MergedRecord) :
    (locationData l).Pairwise (fun a b => a.1 < b.1) := by
  rw [locationData, List.pairwise_map]
  exact (pairwise_lt_sortBy_le _ (List.nodup_dedup _)).imp (fun h => h)

theorem pairwise_insertBy_rev (a : String × Nat × ℚ)
    (m : List (String × Nat × ℚ)) (hm : m.Pairwise locEntryLT)
    (hloc : ∀ b ∈ m, a.1 < b.1) :
    (insertBy (fun x y => decide (y.2.2 ≤ x.2.2)) a m).Pairwise locEntryLT := by
  induction m with
  | nil => simp [insertBy]
  | cons b t ih =>
      rcases List.pairwise_cons.mp hm with ⟨hb, ht⟩
      by_cases hab : decide (b.2.2 ≤ a.2.2) = true
      · simp only [insertBy, hab, if_true]
        refine List.pairwise_cons.mpr ⟨?_, hm⟩
        intro x hx
        have hba : b.2.2 ≤ a.2.2 := of_decide_eq_true hab
        rcases List.mem_cons.mp hx with rfl | hx
        · rcases lt_or_eq_of_le hba with h | h
          · exact Or.inl h
          · exact Or.inr ⟨h.symm, hloc x (List.mem_cons_self x t)⟩
        · rcases hb x hx with h | h
          · exact Or.inl (lt_of_lt_of_le h hba)
          · rcases lt_or_eq_of_le (h.1 ▸ hba) with h2 | h2
            · exact Or.inl h2
            · exact Or.inr ⟨h2.symm, hloc x (List.mem_cons_of_mem b hx)⟩
      · simp only [insertBy, hab, if_false]
        refine List.pairwise_cons.mpr
          ⟨?_, ih ht (fun x hx => hloc x (List.mem_cons_of_mem b hx))⟩
        intro x hx
        have hba : a.2.2 < b.2.2 := by
          have := of_decide_eq_false (Bool.of_not_eq_true hab)
          exact lt_of_not_le this
        rcases (mem_insertBy _ a x t).mp hx with rfl | hx
        · exact Or.inl hba
        · exact hb x hx

theorem pairwise_sortDesc (m : List (String × Nat × ℚ))
    (hm : m.Pairwise (fun a b => a.1 < b.1)) :
    (sortBy (fun x y => decide (y.2.2 ≤ x.2.2)) m).Pairwise locEntryLT := by
  induction m with
  | nil => simp [sortBy]
  | cons a t ih =>
      rcases List.pairwise_cons.mp hm with ⟨ha, ht⟩
      refine pairwise_insertBy_rev a _ (ih ht) ?_
      intro b hb
      exact ha b ((mem_sortBy _ b t).mp hb)

/-! ## Concrete data (the scenario of the spec, section 8) -/

/-- The single customer `C1` of the scenario. -/
def exCustomer : Customer := ⟨1, "Mumbai"⟩

/-- The single product `P1` of the scenario, category `"A"`. -/
def exProduct : Product := ⟨1, "A"⟩

/-- The two sales of the scenario: quantity 2 at price 10 on day 1 and
quantity 1 at price 10 on day 3. -/
def exSales : List SaleRecord := [⟨1, 1, 1, 2, 10⟩, ⟨3, 1, 1, 1, 10⟩]

/-- The merged dataset of the scenario. -/
def exMerged : List MergedRecord := joinAll [exCustomer] [exProduct] exSales

/-- A merged row whose quantity is zero (customer 7): its customer group has
a zero quantity sum. -/
def exZeroQty : MergedRecord := ⟨1, 7, 1, 0, 5, "X", "A"⟩

/-- A sale referencing the nonexistent customer 99. -/
def badSale : SaleRecord := ⟨1, 99, 1, 1, 10⟩

/-- A sale on day 1, before the example start bound 5. -/
def lowSale : SaleRecord := ⟨1, 1, 1, 1, 10⟩

/-- A sale on day 10, inside the example bounds. -/
def highSale : SaleRecord := ⟨10, 1, 1, 1, 10⟩

/-! ## Claim theorems -/

/-- C1: for every non-empty filtered merged dataset, the time-series grid has
exactly one row for every `(Date, Category)` pair of daily dates in
`[minDate, maxDate]` times the distinct categories of the filtered data
(row count = days × categories), and every pair with no matching sales has
`QuantitySold = 0` and `Revenue = 0` rather than a missing value. -/
theorem C1_grid_complete (l : List MergedRecord) (g : List GridCell)
    (hg : buildGrid l = some g) :
    g.length = ((maxDate l - minDate l) + 1) * (categoriesOf l).length
    ∧ (∀ d c, d ∈ gridDates l → c ∈ categoriesOf l →
        g.countP (fun cell =>
          decide (cell.date = d) && decide (cell.category = c)) = 1)
    ∧ ∀ cell ∈ g,
        (∀ m ∈ l, ¬ (m.date = cell.date ∧ m.category = cell.category)) →
        cell.quantitySold = 0 ∧ cell.revenue = 0 := by
  rcases buildGrid_eq_some l g hg with ⟨hne, rfl⟩
  refine ⟨?_, ?_, ?_⟩
  · rw [length_gridRows, length_gridDates]
    have hle := minDate_le_maxDate l hne
    have : maxDate l + 1 - minDate l = (maxDate l - minDate l) + 1 := by omega
    rw [this]
  · intro d c hd hc
    exact countP_gridRows l d c hd hc
  · intro cell hcell hnomatch
    rcases gridRows_fields l cell hcell with ⟨_, _, hq, hr⟩
    have hfil : l.filter (matchesCell cell.date cell.category) = [] := by
      rw [List.filter_eq_nil_iff]
      intro m hm
      rw [matchesCell]
      simp only [Bool.and_eq_true, decide_eq_true_eq, not_and]
      intro h1 h2
      exact hnomatch m hm ⟨h1, h2⟩
    constructor
    · rw [hq, cellQty, hfil]
      rfl
    · rw [hr, cellRev, hfil]
      rfl

/-- C1 witness: on the spec's concrete scenario `buildGrid` succeeds and the
grid has (3 days) × (1 category) rows. -/
theorem C1_grid_complete_witness :
    (gridRows exMerged).length
      = ((maxDate exMerged - minDate exMerged) + 1)
        * (categoriesOf exMerged).length :=
  (C1_grid_complete exMerged (gridRows exMerged)
    (by rw [buildGrid, if_neg (by decide)])).1

/-- C2: the claim states that an empty filtered merged dataset produces an
empty zero-row grid without raising.  The code instead computes
`merged_data['Date'].min()/.max()` (which are `NaT` on an empty dataset) and
`pd.date_range(NaT, NaT)` raises `ValueError`; the raise is modelled by
`buildGrid` returning `none`, which is not the empty grid `some []`.  The
exception is only swallowed by the callback's catch-all handler, which
substitutes error placeholders for every output. -/
theorem C2_empty_grid_raises :
    buildGrid ([] : List MergedRecord) = none
    ∧ (∀ l : List MergedRecord, buildGrid l = none ↔ l = [])
    ∧ buildGrid ([] : List MergedRecord) ≠ some [] := by
  refine ⟨rfl, buildGrid_eq_none, ?_⟩
  intro h
  cases h

/-- C3: the revenue summed over all grid cells equals the sum of per-row
`LineRevenue = QuantitySold × Price` over the filtered dataset, which equals
the by-category distribution total and the global total-revenue scalar; and
each cell's revenue is the sum of the per-row products over its group. -/
theorem C3_revenue_conservation (l : List MergedRecord) (g : List GridCell)
    (hg : buildGrid l = some g) :
    (g.map (fun cell => cell.revenue)).sum = totalRevenue l
    ∧ ((categoryData l).map (fun e => e.2.2)).sum = totalRevenue l
    ∧ totalRevenue l
        = (l.map (fun m => (m.quantitySold : ℚ) * m.price)).sum
    ∧ ∀ cell ∈ g, cell.revenue
        = ((l.filter (matchesCell cell.date cell.category)).map
            lineRevenue).sum := by
  rcases buildGrid_eq_some l g hg with ⟨_, rfl⟩
  refine ⟨sum_gridRows_rev l, sum_categoryData_rev l, rfl, ?_⟩
  intro cell hcell
  exact (gridRows_fields l cell hcell).2.2.2

/-- C3 witness: on the concrete scenario the grid revenue total is the
dataset's total revenue. -/
theorem C3_revenue_conservation_witness :
    ((gridRows exMerged).map (fun cell => cell.revenue)).sum
      = totalRevenue exMerged :=
  (C3_revenue_conservation exMerged (gridRows exMerged)
    (by rw [buildGrid, if_neg (by decide)])).1

/-- C10: the grid's date range comes from the observed minimum and maximum
dates of the filtered data itself, not from the caller-supplied filter
bounds: the grid of the dashboard is built from the filtered data only, its
dates all lie in `[minDate fm, maxDate fm]`, and both endpoints are dates on
which at least one sale occurred in the filtered data. -/
theorem C10_grid_range_from_data (cs : List Customer) (ps : List Product)
    (sales : List SaleRecord) (sd ed : Option Nat)
    (sel : Option (List String)) (fm : List MergedRecord)
    (hfm : fm = filteredMerged cs ps sales sd ed sel) (h : fm ≠ []) :
    (updateDashboard cs ps sales sd ed sel).grid = some (gridRows fm)
    ∧ (∃ m ∈ fm, m.date = minDate fm)
    ∧ (∃ m ∈ fm, m.date = maxDate fm)
    ∧ (∀ x ∈ gridDates fm, minDate fm ≤ x ∧ x ≤ maxDate fm)
    ∧ minDate fm ∈ gridDates fm ∧ maxDate fm ∈ gridDates fm := by
  subst hfm
  set fm := filteredMerged cs ps sales sd ed sel with hfm
  have hgrid : (updateDashboard cs ps sales sd ed sel).grid = buildGrid fm :=
    rfl
  have hle := minDate_le_maxDate fm h
  refine ⟨?_, (minDate_spec fm h).1, (maxDate_spec fm h).1, ?_, ?_, ?_⟩
  · rw [hgrid, buildGrid, if_neg]
    intro he
    exact h (List.isEmpty_iff.mp he)
  · intro x hx
    exact (mem_gridDates fm h x).mp hx
  · exact (mem_gridDates fm h _).mpr ⟨Nat.le_refl _, hle⟩
  · exact (mem_gridDates fm h _).mpr ⟨hle, Nat.le_refl _⟩

/-- C4 counterexample: on a dataset whose single customer group has total
quantity zero, the computed average spending per item is the undefined NaN
value (`none`) — the division by the zero quantity sum is not guarded. -/
theorem C4_unguarded_division_counterexample :
    patternData [exZeroQty] = [(7, 0, (none : Option ℚ))]
    ∧ ¬ (∀ e ∈ patternData [exZeroQty], e.2.2 ≠ (none : Option ℚ)) := by
  have h : patternData [exZeroQty] = [(7, 0, (none : Option ℚ))] := by decide
  refine ⟨h, ?_⟩
  intro hall
  exact hall (7, 0, none) (by rw [h]; exact List.mem_singleton.mpr rfl) rfl

/-- C4 (amended): the per-customer pattern groups by `CustomerID`, sums
`QuantitySold`, and computes average spending per item as
`sum(LineRevenue) / sum(QuantitySold)` (not a naive mean of unit prices);
the division is not guarded: a group whose quantity sum is zero yields the
undefined NaN value instead of a number. -/
theorem C4_customer_pattern_amended (l : List MergedRecord) (cid q : Nat)
    (avg : Option ℚ) (h : (cid, q, avg) ∈ patternData l) :
    q = groupQty l (fun m => m.customerID = cid)
    ∧ (q ≠ 0 →
        avg = some (groupRev l (fun m => m.customerID = cid) / (q : ℚ)))
    ∧ (q = 0 → avg = none) := by
  simp only [patternData, List.mem_map] at h
  obtain ⟨c0, hc0, heq⟩ := h
  have h1 : c0 = cid := congrArg (fun p => p.1) heq
  subst h1
  have h2 : groupQty l (fun m => m.customerID = c0) = q :=
    congrArg (fun p => p.2.1) heq
  have h3 : (if groupQty l (fun m => m.customerID = c0) = 0 then none
      else some (groupRev l (fun m => m.customerID = c0)
        / (groupQty l (fun m => m.customerID = c0) : ℚ))) = avg :=
    congrArg (fun p => p.2.2) heq
  subst h2
  subst h3
  refine ⟨rfl, ?_, ?_⟩
  · intro hq
    rw [if_neg hq]
  · intro hq
    rw [if_pos hq]

/-- C4 witness: the amended theorem applied to the zero-quantity dataset. -/
theorem C4_customer_pattern_amended_witness :
    (0 : Nat) = groupQty [exZeroQty] (fun m => m.customerID = 7) :=
  (C4_customer_pattern_amended [exZeroQty] 7 0 none (by decide)).1

/-- C5: the by-location view groups by `Location`, sums `QuantitySold` and
revenue, and returns the top five groups ordered by revenue descending with
ties broken by location ascending — a deterministic table: every returned
row is a location group with its quantity and revenue sums, the rows are
strictly ordered by (revenue desc, location asc), at most five rows are
returned, and every omitted group's revenue is at most every returned
row's. -/
theorem C5_top_locations (l : List MergedRecord) :
    (∀ e ∈ topLocations l, e ∈ locationData l
      ∧ e.2.1 = groupQty l (fun m => m.location = e.1)
      ∧ e.2.2 = groupRev l (fun m => m.location = e.1))
    ∧ (topLocations l).Pairwise locEntryLT
    ∧ (topLocations l).length = min 5 (locationData l).length
    ∧ (∀ e ∈ locationData l, e ∉ topLocations l →
        ∀ x ∈ topLocations l, e.2.2 ≤ x.2.2) := by
  set s := sortBy (fun x y => decide (y.2.2 ≤ x.2.2)) (locationData l) with hs
  have hperm : s.Perm (locationData l) := sortBy_perm _ _
  have hpair : s.Pairwise locEntryLT :=
    pairwise_sortDesc _ (pairwise_locationData l)
  have htake : topLocations l = s.take 5 := rfl
  refine ⟨?_, ?_, ?_, ?_⟩
  · intro e he
    have hes : e ∈ s := (List.take_sublist 5 s).subset (htake ▸ he)
    have held : e ∈ locationData l := hperm.mem_iff.mp hes
    rcases List.mem_map.mp held with ⟨loc, _, rfl⟩
    exact ⟨held, rfl, rfl⟩
  · rw [htake]
    exact List.Pairwise.sublist (List.take_sublist 5 s) hpair
  · rw [htake, List.length_take, hperm.length_eq]
  · intro e held hnot x hx
    rw [htake] at hnot hx
    have hes : e ∈ s := hperm.mem_iff.mpr held
    have hsplit : s = s.take 5 ++ s.drop 5 := (List.take_append_drop 5 s).symm
    have hedrop : e ∈ s.drop 5 := by
      rcases List.mem_append.mp (hsplit ▸ hes) with h | h
      · exact absurd h hnot
      · exact h
    have hcross : locEntryLT x e :=
      (List.pairwise_append.mp (hsplit ▸ hpair)).2.2 x hx e hedrop
    rcases hcross with h | h
    · exact le_of_lt h
    · exact le_of_eq h.1.symm

/-- C6: the total-customer and total-product scalars count the unfiltered
master tables (catalog size) — they are invariant under any change of sales
data or filters — while the total-revenue scalar sums `LineRevenue` over the
filtered dataset. -/
theorem C6_global_scalars (cs : List Customer) (ps : List Product)
    (sales : List SaleRecord) (sd ed : Option Nat)
    (sel : Option (List String)) :
    (updateDashboard cs ps sales sd ed sel).totalCustomers = cs.length
    ∧ (updateDashboard cs ps sales sd ed sel).totalProducts = ps.length
    ∧ (updateDashboard cs ps sales sd ed sel).totalRevenue
        = totalRevenue (filteredMerged cs ps sales sd ed sel)
    ∧ ∀ sales2 sd2 ed2 sel2,
        (updateDashboard cs ps sales2 sd2 ed2 sel2).totalCustomers
          = (updateDashboard cs ps sales sd ed sel).totalCustomers
        ∧ (updateDashboard cs ps sales2 sd2 ed2 sel2).totalProducts
          = (updateDashboard cs ps sales sd ed sel).totalProducts :=
  ⟨rfl, rfl, rfl, fun _ _ _ _ => ⟨rfl, rfl⟩⟩

theorem length_sub_length_filter {α : Type} (p : α → Bool) (l : List α) :
    l.length - (l.filter p).length = l.countP (fun a => !(p a)) := by
  induction l with
  | nil => rfl
  | cons a t ih =>
      have hle := List.length_filter_le p t
      cases h : p a <;>
        simp [List.filter_cons, h, List.countP_cons] <;>
        omega

/-- C7: the Validator keeps a sale iff both its `CustomerID` and `ProductID`
resolve in the master tables, reports the dropped count (the count of
non-resolving records) without raising, and an excluded record contributes
nothing downstream: appending an invalid record changes no dashboard output
and only increments the drop count. -/
theorem C7_validator (cs : List Customer) (ps : List Product)
    (sales : List SaleRecord) (b : SaleRecord)
    (hb : validSale cs ps b = false) (sd ed : Option Nat)
    (sel : Option (List String)) :
    (∀ s, s ∈ (validateSales cs ps sales).1
      ↔ s ∈ sales ∧ validSale cs ps s = true)
    ∧ (∀ s, validSale cs ps s = true
      ↔ (∃ c ∈ cs, c.customerID = s.customerID)
        ∧ ∃ p ∈ ps, p.productID = s.productID)
    ∧ (validateSales cs ps sales).2
        = sales.countP (fun s => !(validSale cs ps s))
    ∧ (validateSales cs ps (sales ++ [b])).1 = (validateSales cs ps sales).1
    ∧ (validateSales cs ps (sales ++ [b])).2
        = (validateSales cs ps sales).2 + 1
    ∧ updateDashboard cs ps (validateSales cs ps (sales ++ [b])).1 sd ed sel
        = updateDashboard cs ps (validateSales cs ps sales).1 sd ed sel := by
  have hfil : (sales ++ [b]).filter (validSale cs ps)
      = sales.filter (validSale cs ps) := by
    rw [List.filter_append]
    have : [b].filter (validSale cs ps) = [] := by
      rw [List.filter_cons, hb]
      simp
    rw [this, List.append_nil]
  have hlen := List.length_filter_le (validSale cs ps) sales
  refine ⟨?_, ?_, ?_, ?_, ?_, ?_⟩
  · intro s
    exact List.mem_filter
  · intro s
    simp [validSale, List.any_eq_true]
  · exact length_sub_length_filter (validSale cs ps) sales
  · simp only [validateSales, hfil]
  · simp only [validateSales, hfil, List.length_append, List.length_cons,
      List.length_nil]
    omega
  · have h4 : (validateSales cs ps (sales ++ [b])).1
        = (validateSales cs ps sales).1 := by
      simp only [validateSales, hfil]
    rw [h4]

/-- C7 witness: appending a sale that references the nonexistent customer 99
increments the drop count by one. -/
theorem C7_validator_witness :
    (validateSales [exCustomer] [exProduct] (exSales ++ [badSale])).2
      = (validateSales [exCustomer] [exProduct] exSales).2 + 1 :=
  (C7_validator [exCustomer] [exProduct] exSales badSale (by decide)
    none none none).2.2.2.2.1

theorem joinOne_date (cs : List Customer) (ps : List Product)
    (s : SaleRecord) (m : MergedRecord) (h : joinOne cs ps s = some m) :
    m.date = s.date := by
  unfold joinOne at h
  cases hc : cs.find? (fun c => c.customerID = s.customerID) with
  | none =>
      rw [hc] at h
      cases hp : ps.find? (fun p => p.productID = s.productID) with
      | none => rw [hp] at h; cases h
      | some p => rw [hp] at h; cases h
  | some c =>
      rw [hc] at h
      cases hp : ps.find? (fun p => p.productID = s.productID) with
      | none => rw [hp] at h; cases h
      | some p =>
          rw [hp] at h
          cases h
          rfl

/-- C8: the date filter and the category filter commute: applying them in
either order to a merged dataset yields the same result; moreover the date
filter applied to the raw sales before the merges (as the code does) equals
the date filter applied to the merged rows after them, since the merges
preserve the `Date` column. -/
theorem C8_filters_commute (sd ed : Option Nat) (sel : Option (List String))
    (l : List MergedRecord) (cs : List Customer) (ps : List Product)
    (sales : List SaleRecord) :
    categoryFilter sel (dateFilterMerged sd ed l)
      = dateFilterMerged sd ed (categoryFilter sel l)
    ∧ joinAll cs ps (dateFilterSales sd ed sales)
      = dateFilterMerged sd ed (joinAll cs ps sales) := by
  constructor
  · cases sd with
    | none => rfl
    | some s0 =>
        cases ed with
        | none => rfl
        | some e0 =>
            cases sel with
            | none => rfl
            | some ls =>
                cases ls with
                | nil => rfl
                | cons c rest =>
                    simp only [categoryFilter, dateFilterMerged,
                      List.filter_filter]
                    exact List.filter_congr (fun m _ => Bool.and_comm _ _)
  · cases sd with
    | none => rfl
    | some s0 =>
        cases ed with
        | none => rfl
        | some e0 =>
            simp only [dateFilterSales, dateFilterMerged, joinAll]
            induction sales with
            | nil => rfl
            | cons s t ih =>
                cases hj : joinOne cs ps s with
                | none =>
                    by_cases hq :
                        (decide (s0 ≤ s.date) && decide (s.date ≤ e0)) = true
                    · rw [List.filter_cons, if_pos hq, List.filterMap_cons,
                        List.filterMap_cons, hj, ih]
                    · rw [List.filter_cons, if_neg hq, ih,
                        List.filterMap_cons, hj]
                | some m =>
                    have hd : m.date = s.date := joinOne_date cs ps s m hj
                    by_cases hq :
                        (decide (s0 ≤ s.date) && decide (s.date ≤ e0)) = true
                    · have hqm : (decide (s0 ≤ m.date)
                          && decide (m.date ≤ e0)) = true := by
                        rw [hd]; exact hq
                      rw [List.filter_cons, if_pos hq, List.filterMap_cons,
                        List.filterMap_cons, hj, ih, List.filter_cons,
                        if_pos hqm]
                    · have hqm : ¬ ((decide (s0 ≤ m.date)
                          && decide (m.date ≤ e0)) = true) := by
                        rw [hd]; exact hq
                      rw [List.filter_cons, if_neg hq, ih,
                        List.filterMap_cons, hj, List.filter_cons,
                        if_neg hqm]

/-- C9 counterexample: with only a start bound (`start_date = 5`, no end
bound) the code applies no date restriction at all: a record dated before
the bound survives the filter, contradicting the claim that a single bound
still restricts. -/
theorem C9_single_bound_counterexample :
    dateFilterSales (some 5) none [lowSale, highSale] = [lowSale, highSale]
    ∧ lowSale.date < 5 :=
  ⟨rfl, by decide⟩

/-- C9 (amended): the date filter restricts only when both bounds are
supplied; when either bound is absent the data passes unfiltered (rather
than being restricted by the present bound); an absent or empty category
selection applies no category restriction, a non-empty one keeps exactly
the rows whose category is selected. -/
theorem C9_optional_bounds_amended (sd ed : Nat) (sales : List SaleRecord)
    (l : List MergedRecord) (sel : List String) (hsel : sel ≠ []) :
    dateFilterSales (some sd) none sales = sales
    ∧ dateFilterSales none (some ed) sales = sales
    ∧ dateFilterSales none none sales = sales
    ∧ dateFilterSales (some sd) (some ed) sales
        = sales.filter (fun r => decide (sd ≤ r.date) && decide (r.date ≤ ed))
    ∧ categoryFilter none l = l
    ∧ categoryFilter (some []) l = l
    ∧ categoryFilter (some sel) l
        = l.filter (fun m => sel.contains m.category) := by
  refine ⟨rfl, rfl, rfl, rfl, rfl, rfl, ?_⟩
  cases sel with
  | nil => exact absurd rfl hsel
  | cons c rest => rfl

/-- C9 witness: the amended theorem at concrete inputs. -/
theorem C9_optional_bounds_amended_witness :
    dateFilterSales (some 5) none [lowSale] = [lowSale] :=
  (C9_optional_bounds_amended 5 7 [lowSale] [] ["A"] (by decide)).1

/-- C10 witness: with filter bounds `[0, 9]` stretching beyond the data, the
grid still starts at an actual sale date of the filtered data. -/
theorem C10_grid_range_from_data_witness :
    ∃ m ∈ filteredMerged [exCustomer] [exProduct] exSales
        (some 0) (some 9) none,
      m.date = minDate (filteredMerged [exCustomer] [exProduct] exSales
        (some 0) (some 9) none) :=
  (C10_grid_range_from_data [exCustomer] [exProduct] exSales
    (some 0) (some 9) none _ rfl (by decide)).2.1

end RetailSales
